import Mathlib

/-!
# Verification of the homebridge-generic-light protocol engine

A shallow embedding, in Lean 4, of the TCP LED-controller driver found in
`src/control/control.ts` and `src/control/helpers.ts` of the
homebridge-generic-light repository, together with proofs of the properties
stated in its specification.

Modelling conventions:
* JavaScript `Number` arithmetic in the pure conversion helpers is modelled by
  exact rational arithmetic (`ℚ`).
* Byte buffers are `List Nat`; `Buffer.readUInt8` beyond claims' hypotheses is
  modelled by `List.getD` with default `0` (all claims carry a length bound
  whenever an access matters).
* Promise settlement is modelled by an explicit settlement log: each command
  carries a numeric id (ids are assigned in submission order), and resolving or
  rejecting a command appends `(id, outcome)` to the log, skipping ids that are
  already settled (a promise settles at most once).
* The single-threaded event loop is modelled by an explicit event type; a run
  of the instance is a fold of the step function over a list of events.
-/

namespace HBGL

/-! ## Conversion helpers (`src/control/helpers.ts`) -/

/-- `clamp(value, min, max)` from helpers.ts: `Math.min(max, Math.max(min, value))`. -/
def clamp (value mn mx : ℚ) : ℚ :=
  min mx (max mn value)

/-- `delayToSpeed(delay)` from helpers.ts: clamp into `[1,31]`, shift to
`[0,30]`, then `100 - (delay / 30) * 100`. -/
def delayToSpeed (delay : ℚ) : ℚ :=
  let d := clamp delay 1 31
  100 - (d - 1) / 30 * 100

/-- `speedToDelay(speed)` from helpers.ts: clamp into `[0,100]`, then
`30 - (speed / 100) * 30 + 1`. -/
def speedToDelay (speed : ℚ) : ℚ :=
  let s := clamp speed 0 100
  30 - s / 100 * 30 + 1

/-- The coercion a JavaScript `Buffer.from` applies to a (non-negative)
fractional byte value: truncation of the fractional part. -/
def delayByte (speed : ℚ) : Nat :=
  (Int.floor (speedToDelay speed)).toNat

/-! ## Response decoding (`helpers.ts` and the decode step of `queryState`) -/

/-- `resp.readUInt8 n`, on responses long enough for the access. -/
def byteAt (resp : List Nat) (n : Nat) : Nat :=
  resp.getD n 0

/-- `resp.readUInt16BE n`: big-endian 16-bit read. -/
def readUInt16BE (resp : List Nat) (n : Nat) : Nat :=
  byteAt resp n * 256 + byteAt resp (n + 1)

/-- The mode strings returned by `determineMode` in helpers.ts. -/
inductive Mode where
  | color
  | special
  | custom
  | pattern
  | ia_pattern
deriving DecidableEq, Repr

/-- `determineMode(resp)` from helpers.ts (`null` becomes `none`). -/
def determineMode (resp : List Nat) : Option Mode :=
  if byteAt resp 3 = 0x61 ∨ (byteAt resp 3 = 0 ∧ byteAt resp 4 = 0x61) then
    some Mode.color
  else if byteAt resp 3 = 0x62 then
    some Mode.special
  else if byteAt resp 3 = 0x60 then
    some Mode.custom
  else if 0x25 ≤ byteAt resp 3 ∧ byteAt resp 3 ≤ 0x38 then
    some Mode.pattern
  else if 0x64 ≤ readUInt16BE resp 3 ∧ readUInt16BE resp 3 ≤ 0x18f then
    some Mode.ia_pattern
  else
    none

/-- A pattern identifier as returned by `determinePattern`: a pattern name or
a numeric extended-pattern code. -/
abbrev PatternId := String ⊕ Nat

/-- Modelled from the spec: the name→code pattern table lives in
`src/control/constants.ts`, which is not among the provided sources; only its
shape (an object mapping pattern names to one-byte codes, iterated in insertion
order with the first matching name winning) is visible from its uses and the
spec. `determinePattern` is therefore parametrized over the table, as a list of
(name, code) pairs in iteration order. -/
abbrev PatternTable := List (String × Nat)

/-- `determinePattern(resp)` from helpers.ts, parametrized over the pattern
table: if byte 3 lies in `[0x25, 0x38]`, the first table entry whose code
equals byte 3 gives the name; failing that, if the big-endian 16-bit value at
offset 3 lies in `[0x64, 0x18f]`, that value minus 99 is returned; otherwise
`null`. -/
def determinePattern (tbl : PatternTable) (resp : List Nat) : Option PatternId :=
  let found : Option (String × Nat) :=
    if 0x25 ≤ byteAt resp 3 ∧ byteAt resp 3 ≤ 0x38 then
      tbl.find? (fun p => p.2 = byteAt resp 3)
    else
      none
  match found with
  | some p => some (Sum.inl p.1)
  | none =>
    if 0x64 ≤ readUInt16BE resp 3 ∧ readUInt16BE resp 3 ≤ 0x18f then
      some (Sum.inr (readUInt16BE resp 3 - 99))
    else
      none

/-- An RGB triple. -/
structure Rgb where
  red : Nat
  green : Nat
  blue : Nat
deriving DecidableEq, Repr

/-- The decoded controller state built in `queryState` (`StateType` in
types.ts). `speed` is rational because `delayToSpeed` is. -/
structure StateType where
  type : Nat
  -- the source names this field `on`, which is a reserved token in Lean
  onFlag : Bool
  mode : Option Mode
  pattern : Option PatternId
  speed : ℚ
  color : Rgb
  warm_white : Nat
  cold_white : Nat

/-- The errors produced by the protocol engine. -/
inductive ErrKind where
  | timeout
  | connectTimeout
  | socketErr (code : Nat)
  | shortReply
deriving DecidableEq, Repr

/-- The decode step of `queryState` (the body of its `.then`): responses
shorter than 14 bytes fail with `Only got short reply`; otherwise the fields
are extracted as in control.ts lines 691–709. -/
def decodeQueryResponse (tbl : PatternTable) (data : List Nat) :
    Except ErrKind StateType :=
  if data.length < 14 then
    Except.error ErrKind.shortReply
  else
    let mode := determineMode data
    Except.ok
      { type := byteAt data 1
        onFlag := byteAt data 2 = 0x23
        mode := mode
        pattern := determinePattern tbl data
        speed :=
          if mode ≠ some Mode.ia_pattern then
            delayToSpeed (byteAt data 5)
          else
            (byteAt data 5 : ℚ)
        color := ⟨byteAt data 6, byteAt data 7, byteAt data 8⟩
        warm_white := byteAt data 9
        cold_white := byteAt data 11 }

/-! ## The Connection & Queue Manager (`src/control/control.ts`) -/

/-- The outcome a command's promise is settled with: `resolve(receivedData)`
or `reject(error)`. -/
inductive Settlement where
  | resolved (data : List Nat)
  | rejected (e : ErrKind)
deriving DecidableEq, Repr

/-- An entry of `commandQueue`: the wire frame (checksum already appended by
`sendCommand`), the `expectReply` flag, and — in place of the
`resolve`/`reject` continuations — a numeric id, assigned in submission
order, under which the settlement is logged. -/
structure Command where
  id : Nat
  command : List Nat
  expectReply : Bool
deriving DecidableEq, Repr

/-- The per-category acknowledgement flags (`ControlOptionsAckType`). -/
structure AckOptions where
  power : Bool
  color : Bool
  pattern : Bool
  customPattern : Bool
deriving DecidableEq, Repr

/-- `ControlOptionsType`: `none` models `undefined` for the two nullable
timeout durations. -/
structure ControlOptions where
  ack : AckOptions
  applyMasks : Bool
  coldWhiteSupport : Bool
  commandTimeoutLength : Option Nat
  connectTimeoutLength : Option Nat
  logAllReceived : Bool
deriving DecidableEq, Repr

/-- The defaults set in the `Control` constructor. -/
def defaultOptions : ControlOptions where
  ack := ⟨true, true, true, true⟩
  applyMasks := false
  coldWhiteSupport := false
  commandTimeoutLength := some 1000
  connectTimeoutLength := none
  logAllReceived := false

/-- The mutable state of a `Control` instance, restricted to the queue
machinery. `socket = true` models `this.socket != null`; the pending timers
are modelled by armed-flags; `openerReject` is the id of the command whose
`reject` continuation the `error` and connect-timeout handlers captured when
the current socket was created; `settled` is the settlement log (not a field
of the source class: it makes promise settlement observable). -/
structure ControlState where
  options : ControlOptions
  commandQueue : List Command
  socket : Bool
  receivedData : List Nat
  commandTimeoutArmed : Bool
  connectTimeoutArmed : Bool
  preventDataSending : Bool
  openerReject : Option Nat
  nextId : Nat
  settled : List (Nat × Settlement)
deriving DecidableEq, Repr

/-- The state after the constructor has run. -/
def initialState (opts : ControlOptions) : ControlState where
  options := opts
  commandQueue := []
  socket := false
  receivedData := []
  commandTimeoutArmed := false
  connectTimeoutArmed := false
  preventDataSending := false
  openerReject := none
  nextId := 0
  settled := []

/-- The ids already settled, in settlement order. -/
def settledIds (st : ControlState) : List Nat :=
  st.settled.map Prod.fst

/-- The ids of the queued commands, in queue order. -/
def queueIds (st : ControlState) : List Nat :=
  st.commandQueue.map Command.id

/-- Settle command `i` with outcome `r`: a promise settles at most once, so an
already-settled id is left untouched. -/
def settle (st : ControlState) (i : Nat) (r : Settlement) : ControlState :=
  if i ∈ settledIds st then st
  else { st with settled := st.settled ++ [(i, r)] }

/-- `handleNextCommand` (control.ts 151–174): on an empty queue, end and
discard the socket; otherwise write the head command's frame — the write is
asynchronous, its completion arrives as the `writeComplete` event. -/
def handleNextCommand (st : ControlState) : ControlState :=
  match st.commandQueue with
  | [] => { st with socket := false }
  | _ :: _ => st

/-- `receiveData` (control.ts 88–124). Any call clears the pending command
timeout. With `empty = true` the head command (if any) is resolved with the
accumulated bytes, the buffer is cleared, the queue shifted and the next
command dispatched; otherwise the data is appended to the buffer (and the
quiet-period timer re-armed, which the event list models). -/
def receiveData (st : ControlState) (empty : Bool) (data : List Nat) :
    ControlState :=
  if empty then
    match st.commandQueue with
    | [] =>
      handleNextCommand
        { st with commandTimeoutArmed := false, receivedData := [] }
    | c :: rest =>
      handleNextCommand
        { settle st c.id (Settlement.resolved st.receivedData) with
            commandTimeoutArmed := false
            receivedData := []
            commandQueue := rest }
  else
    { st with
        commandTimeoutArmed := false
        receivedData := st.receivedData ++ data }

/-- `handleCommandTimeout` (control.ts 129–146): reject only the head command
with `Command timed out`, clear the buffer, shift the queue, dispatch next. -/
def handleCommandTimeout (st : ControlState) : ControlState :=
  match st.commandQueue with
  | [] =>
    handleNextCommand
      { st with commandTimeoutArmed := false, receivedData := [] }
  | c :: rest =>
    handleNextCommand
      { settle st c.id (Settlement.rejected ErrKind.timeout) with
          commandTimeoutArmed := false
          receivedData := []
          commandQueue := rest }

/-- The `reject(err)` call at the top of `socketErrorHandler`: it invokes the
`reject` continuation the socket handlers captured when the current socket
was created (a settled promise ignores the call). -/
def rejectOpener (st : ControlState) (err : ErrKind) : ControlState :=
  match st.openerReject with
  | some j => settle st j (Settlement.rejected err)
  | none => st

/-- `socketErrorHandler` (control.ts 238–255): set `preventDataSending`, call
the captured `reject` (the connection opener's), discard the socket, reject
every queued command with the same error, and clear the queue. Note that
`receivedData` is left untouched. -/
def socketErrorHandler (st : ControlState) (err : ErrKind) : ControlState :=
  { (rejectOpener st err).commandQueue.foldl
      (fun s c => settle s c.id (Settlement.rejected err))
      (rejectOpener st err) with
      preventDataSending := true
      socket := false
      commandQueue := [] }

/-- The checksum computation in `sendCommand` (control.ts 180–185): sum the
frame's bytes and mask with `0xff`. -/
def calcChecksum (buf : List Nat) : Nat :=
  (buf.foldl (fun acc b => acc + b) 0) &&& 0xff

/-- `sendCommand` (control.ts 179–233): append the checksum, then either (on
an empty queue with no socket) push the command, clear `preventDataSending`
and open a connection — arming the connect timeout when a truthy
`connectTimeoutLength` is configured, and capturing this command's `reject`
for the socket handlers — or simply append the command to the queue. -/
def sendCommand (st : ControlState) (buf : List Nat) (expectReply : Bool) :
    ControlState :=
  let command := buf ++ [calcChecksum buf]
  let cmd : Command := ⟨st.nextId, command, expectReply⟩
  if st.commandQueue = [] ∧ st.socket = false then
    { st with
        commandQueue := [cmd]
        nextId := st.nextId + 1
        preventDataSending := false
        socket := true
        openerReject := some cmd.id
        connectTimeoutArmed :=
          match st.options.connectTimeoutLength with
          | some n => n ≠ 0
          | none => false }
  else
    { st with
        commandQueue := st.commandQueue ++ [cmd]
        nextId := st.nextId + 1 }

/-- The `net.connect` success callback (control.ts 195–205): clear the connect
timeout and, unless `preventDataSending` was set by an error in between,
dispatch the first command. -/
def connectedCb (st : ControlState) : ControlState :=
  let st1 := { st with connectTimeoutArmed := false }
  if st1.preventDataSending then st1 else handleNextCommand st1

/-- The completion callback of the head command's `socket.write` (control.ts
156–172): a command not expecting a reply is finished immediately via
`receiveData(true)`; one expecting a reply arms the command timeout if a
timeout length is configured. -/
def writeCb (st : ControlState) : ControlState :=
  match st.commandQueue with
  | [] => st
  | c :: _ =>
    if c.expectReply then
      match st.options.commandTimeoutLength with
      | none => st
      | some _ => { st with commandTimeoutArmed := true }
    else
      receiveData st true []

/-- The events the Node event loop can deliver to one `Control` instance. -/
inductive Event where
  | submit (buf : List Nat) (expectReply : Bool)
  | connected
  | writeComplete
  | data (bytes : List Nat)
  | receiveTimeout
  | commandTimeoutFire
  | socketError (code : Nat)
  | connectTimeoutFire
deriving DecidableEq, Repr

/-- One step of the event loop: timers fire only when armed; everything else
delegates to the handler the source registers for that event. -/
def step (st : ControlState) (e : Event) : ControlState :=
  match e with
  | Event.submit buf expectReply => sendCommand st buf expectReply
  | Event.connected => connectedCb st
  | Event.writeComplete => writeCb st
  | Event.data bytes => receiveData st false bytes
  | Event.receiveTimeout => receiveData st true []
  | Event.commandTimeoutFire =>
    if st.commandTimeoutArmed then handleCommandTimeout st else st
  | Event.socketError code => socketErrorHandler st (ErrKind.socketErr code)
  | Event.connectTimeoutFire =>
    if st.connectTimeoutArmed then socketErrorHandler st ErrKind.connectTimeout
    else st

/-- A complete run of one instance over a list of events. -/
def run (opts : ControlOptions) (es : List Event) : ControlState :=
  es.foldl step (initialState opts)

/-! ## Facade operations -/

/-- The validation errors a facade operation can reject with before any queue
interaction (`Promise.reject(new Error(...))`). -/
inductive FacadeError where
  | invalidCode
  | invalidPattern
deriving DecidableEq, Repr

/-- The boolean a facade's `.then` continuation produces from the settled
bytes: `data.length > 0 || !ackFlag` (control.ts 308 and analogues). -/
def facadeResult (data : List Nat) (ackFlag : Bool) : Bool :=
  decide (data.length > 0) || !ackFlag

/-- `setIAPattern(code, speed)` (control.ts 544–576): codes outside `[1,300]`
are rejected with `Invalid code` before `sendCommand` is reached (the state
is returned unchanged); otherwise 99 is added to the code and the frame
`[0x61, code >> 8, code & 0xff, speed, 0x0f]` — with the raw `speed` argument
as fourth byte — is submitted. -/
def setIAPattern (st : ControlState) (code speed : Nat) :
    ControlState × Except FacadeError Unit :=
  if code < 1 ∨ code > 300 then
    (st, Except.error FacadeError.invalidCode)
  else
    let c := code + 99
    let bufferArray := [0x61, c >>> 8, c &&& 0xff, speed, 0x0f]
    (sendCommand st bufferArray st.options.ack.pattern, Except.ok ())

/-- The argument of `setCustomPattern`: whether the value is an instance of
the (external) `CustomMode` class, its `colors` array (slot `i` is set iff
`i < colors.length`), and its `transitionType` string. In JavaScript the
string field of an instance can hold any value. -/
structure CustomModePattern where
  isCustomModeInstance : Bool
  colors : List Rgb
  transitionType : String
deriving DecidableEq, Repr

/-- `setCustomPattern(pattern, speed)` (control.ts 585–648): a value that is
not a `CustomMode` instance is rejected with `Invalid pattern`; otherwise 16
four-byte color slots are emitted (`[1, 2, 3, 0]` for unset slots), then the
delay byte, then the transition-type byte — the `switch` pushes nothing for a
transition type other than fade/jump/strobe — then `0xff, 0x0f`, and the
frame is submitted. -/
def setCustomPattern (st : ControlState) (pattern : CustomModePattern)
    (speed : ℚ) : ControlState × Except FacadeError Unit :=
  if ¬pattern.isCustomModeInstance then
    (st, Except.error FacadeError.invalidPattern)
  else
    let delay := delayByte speed
    let slots : List Nat :=
      (List.range 16).foldl
        (fun acc i =>
          match pattern.colors[i]? with
          | some col => acc ++ [col.red, col.green, col.blue, 0]
          | none => acc ++ [1, 2, 3, 0])
        []
    let transitionBytes : List Nat :=
      if pattern.transitionType = "fade" then [0x3a]
      else if pattern.transitionType = "jump" then [0x3b]
      else if pattern.transitionType = "strobe" then [0x3c]
      else []
    let cmdBufValues := [0x51] ++ slots ++ [delay] ++ transitionBytes ++ [0xff, 0x0f]
    (sendCommand st cmdBufValues st.options.ack.customPattern, Except.ok ())

/-- The main queue invariant: the settled ids (in settlement order) followed
by the queued ids (in queue order) are exactly `0, 1, …, nextId - 1`, i.e.
settlement happens in submission order and the queue holds the remaining
commands in submission order; and the command whose `reject` the socket
handlers captured is either already settled or at the head of the queue. -/
def Inv (st : ControlState) : Prop :=
  settledIds st ++ queueIds st = List.range st.nextId ∧
  ∀ j, st.openerReject = some j →
    j ∈ settledIds st ∨ ∃ c rest, st.commandQueue = c :: rest ∧ c.id = j

/-! ## Basic lemmas -/

theorem land_255_eq_mod (n : Nat) : n &&& 255 = n % 256 := by
  have h := Nat.and_pow_two_sub_one_eq_mod n 8
  norm_num at h
  exact h

theorem calcChecksum_eq_sum_mod (buf : List Nat) :
    calcChecksum buf = buf.sum % 256 := by
  unfold calcChecksum
  rw [List.sum_eq_foldl, land_255_eq_mod]

theorem sendCommand_queue (st : ControlState) (buf : List Nat) (r : Bool) :
    (sendCommand st buf r).commandQueue
      = st.commandQueue ++ [⟨st.nextId, buf ++ [calcChecksum buf], r⟩] := by
  unfold sendCommand
  split
  next h => simp [h.1]
  next => simp

theorem sendCommand_settled (st : ControlState) (buf : List Nat) (r : Bool) :
    (sendCommand st buf r).settled = st.settled := by
  unfold sendCommand
  split <;> simp

theorem sendCommand_nextId (st : ControlState) (buf : List Nat) (r : Bool) :
    (sendCommand st buf r).nextId = st.nextId + 1 := by
  unfold sendCommand
  split <;> simp

theorem settle_of_mem (st : ControlState) (i : Nat) (r : Settlement)
    (h : i ∈ settledIds st) : settle st i r = st := by
  unfold settle
  rw [if_pos h]

theorem settle_of_not_mem (st : ControlState) (i : Nat) (r : Settlement)
    (h : i ∉ settledIds st) :
    settle st i r = { st with settled := st.settled ++ [(i, r)] } := by
  unfold settle
  rw [if_neg h]

theorem settledIds_append (st : ControlState) (i : Nat) (r : Settlement) :
    settledIds { st with settled := st.settled ++ [(i, r)] }
      = settledIds st ++ [i] := by
  simp [settledIds]

theorem settle_commandQueue (st : ControlState) (i : Nat) (r : Settlement) :
    (settle st i r).commandQueue = st.commandQueue := by
  unfold settle
  split <;> rfl

theorem settle_receivedData (st : ControlState) (i : Nat) (r : Settlement) :
    (settle st i r).receivedData = st.receivedData := by
  unfold settle
  split <;> rfl

theorem handleNextCommand_settled (st : ControlState) :
    (handleNextCommand st).settled = st.settled := by
  unfold handleNextCommand
  cases st.commandQueue <;> rfl

theorem handleNextCommand_commandQueue (st : ControlState) :
    (handleNextCommand st).commandQueue = st.commandQueue := by
  unfold handleNextCommand
  cases hq : st.commandQueue <;> simp [hq]

theorem handleNextCommand_nextId (st : ControlState) :
    (handleNextCommand st).nextId = st.nextId := by
  unfold handleNextCommand
  cases st.commandQueue <;> rfl

theorem handleNextCommand_openerReject (st : ControlState) :
    (handleNextCommand st).openerReject = st.openerReject := by
  unfold handleNextCommand
  cases st.commandQueue <;> rfl

theorem handleNextCommand_receivedData (st : ControlState) :
    (handleNextCommand st).receivedData = st.receivedData := by
  unfold handleNextCommand
  cases st.commandQueue <;> rfl

theorem inv_congr (st st' : ControlState) (h : Inv st)
    (h1 : st'.settled = st.settled) (h2 : st'.commandQueue = st.commandQueue)
    (h3 : st'.nextId = st.nextId) (h4 : st'.openerReject = st.openerReject) :
    Inv st' := by
  have hs : settledIds st' = settledIds st := by
    unfold settledIds
    rw [h1]
  have hq : queueIds st' = queueIds st := by
    unfold queueIds
    rw [h2]
  constructor
  · rw [hs, hq, h3]
    exact h.1
  · intro j hj
    rw [h4] at hj
    rcases h.2 j hj with hmem | ⟨c, rest, hcq, hid⟩
    · left
      rw [hs]
      exact hmem
    · right
      exact ⟨c, rest, by rw [h2, hcq], hid⟩

theorem inv_queue_fresh (st : ControlState) (hInv : Inv st) :
    (∀ c ∈ st.commandQueue, c.id ∉ settledIds st) ∧ (queueIds st).Nodup := by
  have hnd : (settledIds st ++ queueIds st).Nodup := by
    rw [hInv.1]
    exact List.nodup_range st.nextId
  rw [List.nodup_append] at hnd
  obtain ⟨_, h2, hdisj⟩ := hnd
  refine ⟨?_, h2⟩
  intro c hc hmem
  exact hdisj hmem (List.mem_map_of_mem Command.id hc)

theorem foldl_settle_rejected (err : ErrKind) (cs : List Command) :
    ∀ st : ControlState, (∀ c ∈ cs, c.id ∉ settledIds st) →
      (cs.map Command.id).Nodup →
      cs.foldl (fun s c => settle s c.id (Settlement.rejected err)) st
        = { st with settled :=
              st.settled ++ cs.map (fun c => (c.id, Settlement.rejected err)) } := by
  induction cs with
  | nil =>
    intro st _ _
    simp
  | cons c cs ih =>
    intro st hfresh hnd
    rw [List.foldl_cons,
      settle_of_not_mem st c.id _ (hfresh c (List.mem_cons_self c cs))]
    rw [List.map_cons, List.nodup_cons] at hnd
    rw [ih _ ?_ hnd.2]
    · simp
    · intro c' hc'
      rw [settledIds_append]
      simp only [List.mem_append, List.mem_singleton]
      rintro (hin | heq)
      · exact hfresh c' (List.mem_cons_of_mem c hc') hin
      · exact hnd.1 (heq ▸ List.mem_map_of_mem Command.id hc')

theorem foldl_settle_receivedData (err : ErrKind) (cs : List Command) :
    ∀ st : ControlState,
      (cs.foldl (fun s c => settle s c.id (Settlement.rejected err))
          st).receivedData = st.receivedData := by
  induction cs with
  | nil =>
    intro st
    rfl
  | cons c cs ih =>
    intro st
    rw [List.foldl_cons, ih, settle_receivedData]

theorem rejectOpener_receivedData (st : ControlState) (err : ErrKind) :
    (rejectOpener st err).receivedData = st.receivedData := by
  unfold rejectOpener
  cases st.openerReject
  · rfl
  · rw [settle_receivedData]

theorem socketErrorHandler_receivedData (st : ControlState) (err : ErrKind) :
    (socketErrorHandler st err).receivedData = st.receivedData := by
  show ((rejectOpener st err).commandQueue.foldl
      (fun s c => settle s c.id (Settlement.rejected err))
      (rejectOpener st err)).receivedData = st.receivedData
  rw [foldl_settle_receivedData, rejectOpener_receivedData]

theorem socketErrorHandler_spec (st : ControlState) (err : ErrKind)
    (hInv : Inv st) :
    settledIds (socketErrorHandler st err) = settledIds st ++ queueIds st ∧
    (∀ c ∈ st.commandQueue,
      (c.id, Settlement.rejected err) ∈ (socketErrorHandler st err).settled) ∧
    (socketErrorHandler st err).commandQueue = [] ∧
    (socketErrorHandler st err).socket = false ∧
    (socketErrorHandler st err).nextId = st.nextId ∧
    (socketErrorHandler st err).openerReject = st.openerReject := by
  obtain ⟨hfresh, hnd⟩ := inv_queue_fresh st hInv
  have key : ∃ extra : List (Nat × Settlement),
      socketErrorHandler st err
        = { st with
            settled := st.settled ++ extra
            preventDataSending := true
            socket := false
            commandQueue := [] } ∧
      (st.settled ++ extra).map Prod.fst = settledIds st ++ queueIds st ∧
      ∀ c ∈ st.commandQueue,
        (c.id, Settlement.rejected err) ∈ st.settled ++ extra := by
    have hplain :
        rejectOpener st err = st →
        socketErrorHandler st err
          = { st with
              settled := st.settled ++ st.commandQueue.map
                (fun c => (c.id, Settlement.rejected err))
              preventDataSending := true
              socket := false
              commandQueue := [] } := by
      intro hro
      unfold socketErrorHandler
      rw [hro, foldl_settle_rejected err st.commandQueue st hfresh hnd]
    have hplainPack :
        rejectOpener st err = st →
        ∃ extra, socketErrorHandler st err
            = { st with
                settled := st.settled ++ extra
                preventDataSending := true
                socket := false
                commandQueue := [] } ∧
          (st.settled ++ extra).map Prod.fst = settledIds st ++ queueIds st ∧
          ∀ c ∈ st.commandQueue,
            (c.id, Settlement.rejected err) ∈ st.settled ++ extra := by
      intro hro
      refine ⟨st.commandQueue.map (fun c => (c.id, Settlement.rejected err)),
        hplain hro, ?_, ?_⟩
      · simp [settledIds, queueIds]
      · intro c hc
        exact List.mem_append_right _
          (List.mem_map_of_mem (fun c => (c.id, Settlement.rejected err)) hc)
    have hro_or : rejectOpener st err = st ∨
        ∃ j, st.openerReject = some j ∧
          rejectOpener st err = settle st j (Settlement.rejected err) := by
      unfold rejectOpener
      cases st.openerReject with
      | none => exact Or.inl rfl
      | some j => exact Or.inr ⟨j, rfl, rfl⟩
    rcases hro_or with hro | ⟨j, hop, hro⟩
    · exact hplainPack hro
    by_cases hj : j ∈ settledIds st
    · exact hplainPack (hro.trans (settle_of_mem st j _ hj))
    obtain ⟨c0, rest, hq, hid⟩ := (hInv.2 j hop).resolve_left hj
    have hqid : queueIds st = j :: rest.map Command.id := by
      rw [queueIds, hq, List.map_cons, hid]
    have hndr : (rest.map Command.id).Nodup := by
      rw [hqid] at hnd
      exact (List.nodup_cons.mp hnd).2
    have hjrest : j ∉ rest.map Command.id := by
      rw [hqid] at hnd
      exact (List.nodup_cons.mp hnd).1
    have hfreshr : ∀ c ∈ rest, c.id ∉ settledIds
        { st with commandQueue := c0 :: rest
                  settled := st.settled ++ [(j, Settlement.rejected err)] } := by
      intro c hc
      simp only [settledIds, List.map_append, List.map_cons, List.map_nil,
        List.mem_append, List.mem_singleton, List.mem_cons, List.not_mem_nil,
        or_false]
      rintro (hin | heq)
      · exact hfresh c (by rw [hq]; exact List.mem_cons_of_mem c0 hc) hin
      · exact hjrest (heq ▸ List.mem_map_of_mem Command.id hc)
    have hro2 : rejectOpener st err
        = { st with settled := st.settled ++ [(j, Settlement.rejected err)] } :=
      hro.trans (settle_of_not_mem st j _ hj)
    refine ⟨(j, Settlement.rejected err)
        :: rest.map (fun c => (c.id, Settlement.rejected err)), ?_, ?_, ?_⟩
    · unfold socketErrorHandler
      rw [hro2]
      have hq1 : ({ st with settled :=
          st.settled ++ [(j, Settlement.rejected err)] } :
            ControlState).commandQueue = c0 :: rest := hq
      rw [hq1, List.foldl_cons,
        settle_of_mem _ c0.id _ (by
          rw [hid]
          simp [settledIds]),
        foldl_settle_rejected err rest _ hfreshr hndr]
      simp
    · rw [hqid]
      simp [settledIds]
    · intro c hc
      rw [hq] at hc
      rcases List.mem_cons.mp hc with hceq | hcr
      · subst hceq
        rw [hid]
        simp
      · simp only [List.mem_append, List.mem_cons]
        right
        right
        exact List.mem_map_of_mem (fun c => (c.id, Settlement.rejected err)) hcr
  obtain ⟨extra, hEq, hids, hmem⟩ := key
  rw [hEq]
  exact ⟨hids, hmem, rfl, rfl, rfl, rfl⟩

theorem receiveData_false_eq (st : ControlState) (data : List Nat) :
    receiveData st false data
      = { st with
          commandTimeoutArmed := false
          receivedData := st.receivedData ++ data } := rfl

theorem receiveData_true_nil (st : ControlState) (data : List Nat)
    (hq : st.commandQueue = []) :
    receiveData st true data
      = handleNextCommand
          { st with commandTimeoutArmed := false, receivedData := [] } := by
  unfold receiveData
  rw [hq]
  rfl

theorem receiveData_true_cons (st : ControlState) (data : List Nat)
    (c : Command) (rest : List Command) (hq : st.commandQueue = c :: rest) :
    receiveData st true data
      = handleNextCommand
          { settle st c.id (Settlement.resolved st.receivedData) with
            commandTimeoutArmed := false
            receivedData := []
            commandQueue := rest } := by
  unfold receiveData
  rw [hq]
  rfl

theorem handleCommandTimeout_nil (st : ControlState)
    (hq : st.commandQueue = []) :
    handleCommandTimeout st
      = handleNextCommand
          { st with commandTimeoutArmed := false, receivedData := [] } := by
  unfold handleCommandTimeout
  rw [hq]

theorem handleCommandTimeout_cons (st : ControlState) (c : Command)
    (rest : List Command) (hq : st.commandQueue = c :: rest) :
    handleCommandTimeout st
      = handleNextCommand
          { settle st c.id (Settlement.rejected ErrKind.timeout) with
            commandTimeoutArmed := false
            receivedData := []
            commandQueue := rest } := by
  unfold handleCommandTimeout
  rw [hq]

theorem writeCb_nil (st : ControlState) (hq : st.commandQueue = []) :
    writeCb st = st := by
  unfold writeCb
  rw [hq]

theorem writeCb_cons (st : ControlState) (c : Command) (rest : List Command)
    (hq : st.commandQueue = c :: rest) :
    writeCb st
      = if c.expectReply then
          match st.options.commandTimeoutLength with
          | none => st
          | some _ => { st with commandTimeoutArmed := true }
        else receiveData st true [] := by
  unfold writeCb
  rw [hq]

theorem inv_handleNextCommand (st : ControlState) (h : Inv st) :
    Inv (handleNextCommand st) :=
  inv_congr _ _ h (handleNextCommand_settled st)
    (handleNextCommand_commandQueue st) (handleNextCommand_nextId st)
    (handleNextCommand_openerReject st)

theorem inv_finish_head (st : ControlState) (r : Settlement) (c : Command)
    (rest : List Command) (hq : st.commandQueue = c :: rest) (h : Inv st) :
    Inv { settle st c.id r with
          commandTimeoutArmed := false
          receivedData := []
          commandQueue := rest } := by
  have hfresh : c.id ∉ settledIds st :=
    (inv_queue_fresh st h).1 c (by rw [hq]; exact List.mem_cons_self c rest)
  rw [settle_of_not_mem st c.id r hfresh]
  constructor
  · have h1 := h.1
    rw [queueIds, hq, List.map_cons] at h1
    simp only [settledIds, queueIds, List.map_append, List.map_cons,
      List.map_nil, List.append_assoc, List.singleton_append, List.nil_append]
    exact h1
  · intro j hj
    rcases h.2 j hj with hmem | ⟨c', rest', hq', hid'⟩
    · left
      simp only [settledIds, List.map_append, List.map_cons, List.map_nil,
        List.mem_append]
      left
      simpa [settledIds] using hmem
    · left
      have h2 := hq.symm.trans hq'
      injection h2 with h3 _
      simp only [settledIds, List.map_append, List.map_cons, List.map_nil,
        List.mem_append]
      right
      simp [h3, hid']

theorem inv_sendCommand (st : ControlState) (buf : List Nat) (r : Bool)
    (h : Inv st) : Inv (sendCommand st buf r) := by
  unfold sendCommand
  split
  next hc =>
    constructor
    · have h1 := h.1
      rw [queueIds, hc.1] at h1
      simp only [List.map_nil, List.append_nil] at h1
      simp only [settledIds, queueIds, List.map_cons, List.map_nil]
      rw [List.range_succ, ← h1]
      rfl
    · intro j hj
      have hj' : st.nextId = j := by simpa using hj
      right
      exact ⟨_, [], rfl, hj'⟩
  next =>
    constructor
    · have h1 := h.1
      simp only [settledIds, queueIds] at h1 ⊢
      simp only [List.map_append, List.map_cons, List.map_nil]
      rw [List.range_succ, ← List.append_assoc, h1]
    · intro j hj
      rcases h.2 j hj with hmem | ⟨c', rest', hq', hid'⟩
      · exact Or.inl hmem
      · right
        refine ⟨c', rest' ++ [⟨st.nextId, buf ++ [calcChecksum buf], r⟩], ?_, hid'⟩
        show st.commandQueue ++ _ = _
        rw [hq']
        simp

theorem inv_receiveData (st : ControlState) (empty : Bool) (data : List Nat)
    (h : Inv st) : Inv (receiveData st empty data) := by
  cases empty with
  | false =>
    rw [receiveData_false_eq]
    exact inv_congr _ _ h rfl rfl rfl rfl
  | true =>
    cases hq : st.commandQueue with
    | nil =>
      rw [receiveData_true_nil st data hq]
      exact inv_handleNextCommand _ (inv_congr _ _ h rfl rfl rfl rfl)
    | cons c rest =>
      rw [receiveData_true_cons st data c rest hq]
      exact inv_handleNextCommand _ (inv_finish_head st _ c rest hq h)

theorem inv_handleCommandTimeout (st : ControlState) (h : Inv st) :
    Inv (handleCommandTimeout st) := by
  cases hq : st.commandQueue with
  | nil =>
    rw [handleCommandTimeout_nil st hq]
    exact inv_handleNextCommand _ (inv_congr _ _ h rfl rfl rfl rfl)
  | cons c rest =>
    rw [handleCommandTimeout_cons st c rest hq]
    exact inv_handleNextCommand _ (inv_finish_head st _ c rest hq h)

theorem inv_connectedCb (st : ControlState) (h : Inv st) :
    Inv (connectedCb st) := by
  simp only [connectedCb]
  split
  · exact inv_congr _ _ h rfl rfl rfl rfl
  · exact inv_handleNextCommand _ (inv_congr _ _ h rfl rfl rfl rfl)

theorem inv_writeCb (st : ControlState) (h : Inv st) : Inv (writeCb st) := by
  cases hq : st.commandQueue with
  | nil =>
    rw [writeCb_nil st hq]
    exact h
  | cons c rest =>
    rw [writeCb_cons st c rest hq]
    by_cases hr : c.expectReply
    · rw [if_pos hr]
      cases ht : st.options.commandTimeoutLength with
      | none => exact h
      | some n => exact inv_congr _ _ h rfl rfl rfl rfl
    · rw [if_neg hr]
      exact inv_receiveData st true [] h

theorem inv_socketErrorHandler (st : ControlState) (err : ErrKind)
    (h : Inv st) : Inv (socketErrorHandler st err) := by
  obtain ⟨hids, hmem, hq0, hs, hn, hop⟩ := socketErrorHandler_spec st err h
  constructor
  · simp only [queueIds, hq0, List.map_nil, List.append_nil]
    rw [hids, hn]
    exact h.1
  · intro j hj
    rw [hop] at hj
    rcases h.2 j hj with hmem' | ⟨c', rest', hq', hid'⟩
    · left
      rw [hids]
      exact List.mem_append_left _ hmem'
    · left
      rw [hids]
      refine List.mem_append_right _ ?_
      rw [← hid']
      exact List.mem_map_of_mem Command.id
        (by rw [hq']; exact List.mem_cons_self c' rest')

theorem inv_step (st : ControlState) (e : Event) (h : Inv st) :
    Inv (step st e) := by
  cases e with
  | submit buf r => exact inv_sendCommand st buf r h
  | connected => exact inv_connectedCb st h
  | writeComplete => exact inv_writeCb st h
  | data bytes => exact inv_receiveData st false bytes h
  | receiveTimeout => exact inv_receiveData st true [] h
  | commandTimeoutFire =>
    show Inv (if st.commandTimeoutArmed then handleCommandTimeout st else st)
    split
    · exact inv_handleCommandTimeout st h
    · exact h
  | socketError code => exact inv_socketErrorHandler st _ h
  | connectTimeoutFire =>
    show Inv (if st.connectTimeoutArmed then
        socketErrorHandler st ErrKind.connectTimeout
      else st)
    split
    · exact inv_socketErrorHandler st _ h
    · exact h

theorem inv_initial (opts : ControlOptions) : Inv (initialState opts) := by
  constructor
  · simp [settledIds, queueIds, initialState]
  · intro j hj
    simp [initialState] at hj

theorem inv_foldl (es : List Event) :
    ∀ st : ControlState, Inv st → Inv (es.foldl step st) := by
  induction es with
  | nil =>
    intro st h
    exact h
  | cons e es ih =>
    intro st h
    rw [List.foldl_cons]
    exact ih _ (inv_step st e h)

theorem inv_run (opts : ControlOptions) (es : List Event) :
    Inv (run opts es) :=
  inv_foldl es _ (inv_initial opts)

theorem speedToDelay_def (s : ℚ) :
    speedToDelay s = 30 - clamp s 0 100 / 100 * 30 + 1 := rfl

theorem delayToSpeed_def (d : ℚ) :
    delayToSpeed d = 100 - (clamp d 1 31 - 1) / 30 * 100 := rfl

theorem clamp_of_le (x a b : ℚ) (h1 : a ≤ x) (h2 : x ≤ b) : clamp x a b = x := by
  unfold clamp
  rw [max_eq_right h1, min_eq_right h2]

theorem clamp_mem (x a b : ℚ) (hab : a ≤ b) :
    a ≤ clamp x a b ∧ clamp x a b ≤ b := by
  unfold clamp
  exact ⟨le_min hab (le_max_left a x), min_le_left b _⟩

/-! ## Claim theorems -/

/-- C2: for every frame submitted through the send path (any operation, any
payload, any instance state), exactly one checksum byte is appended, and it
equals the sum of all preceding bytes of that frame modulo 256. -/
theorem C2_checksum_appended (st : ControlState) (buf : List Nat) (r : Bool) :
    ∃ cmd, (sendCommand st buf r).commandQueue = st.commandQueue ++ [cmd] ∧
      cmd.command = buf ++ [buf.sum % 256] ∧
      cmd.command.length = buf.length + 1 :=
  ⟨⟨st.nextId, buf ++ [calcChecksum buf], r⟩, sendCommand_queue st buf r,
    by rw [calcChecksum_eq_sum_mod], by simp⟩

/-- C5: for integer (indeed any rational) `s` in `[0,100]` the
delay-speed round trip is the identity (exactly, hence in particular up to
rounding at the extremes); both converters clamp their argument first
(`speedToDelay` into `[0,100]`, `delayToSpeed` into `[1,31]`); and
`speedToDelay` maps 100 to 1 and 0 to 31. JavaScript number arithmetic is
modelled by exact rationals. -/
theorem C5_conversion_inverse (s : ℚ) (h0 : 0 ≤ s) (h1 : s ≤ 100) :
    delayToSpeed (speedToDelay s) = s ∧
    (∀ t : ℚ, speedToDelay t = speedToDelay (clamp t 0 100)) ∧
    (∀ d : ℚ, delayToSpeed d = delayToSpeed (clamp d 1 31)) ∧
    speedToDelay 100 = 1 ∧ speedToDelay 0 = 31 := by
  refine ⟨?_, ?_, ?_, ?_, ?_⟩
  · rw [speedToDelay_def, delayToSpeed_def, clamp_of_le s 0 100 h0 h1]
    rw [clamp_of_le _ _ _ (by linarith) (by linarith)]
    field_simp
    ring
  · intro t
    rw [speedToDelay_def, speedToDelay_def,
      clamp_of_le _ _ _ (clamp_mem t 0 100 (by norm_num)).1
        (clamp_mem t 0 100 (by norm_num)).2]
  · intro d
    rw [delayToSpeed_def, delayToSpeed_def,
      clamp_of_le _ _ _ (clamp_mem d 1 31 (by norm_num)).1
        (clamp_mem d 1 31 (by norm_num)).2]
  · rw [speedToDelay_def, clamp_of_le _ _ _ (by norm_num) (by norm_num)]
    norm_num
  · rw [speedToDelay_def, clamp_of_le _ _ _ (by norm_num) (by norm_num)]
    norm_num

/-- C5 witness: the round trip at `s = 50`. -/
theorem C5_conversion_inverse_witness :
    (0 : ℚ) ≤ 50 ∧ (50 : ℚ) ≤ 100 ∧
      delayToSpeed (speedToDelay 50) = 50 :=
  ⟨by norm_num, by norm_num,
    (C5_conversion_inverse 50 (by norm_num) (by norm_num)).1⟩

/-- C6: `setIAPattern` rejects every code outside `[1,300]` with a validation
error, leaving the instance state (queue, socket) untouched; and
`setIAPattern(1, 10)` queues a frame beginning with opcode `0x61` followed by
the 16-bit value 100 in big-endian byte order. -/
theorem C6_setIAPattern_validation (st : ControlState) (code speed : Nat)
    (h : code < 1 ∨ code > 300) :
    setIAPattern st code speed = (st, Except.error FacadeError.invalidCode) ∧
    ∃ cmd,
      ((setIAPattern (initialState defaultOptions) 1 10).1).commandQueue = [cmd] ∧
      cmd.command.take 3 = [0x61, 0, 100] ∧
      (setIAPattern (initialState defaultOptions) 1 10).2 = Except.ok () := by
  constructor
  · unfold setIAPattern
    rw [if_pos h]
  · exact ⟨⟨0, [0x61, 0, 100, 10, 0x0f, 222], true⟩, by decide, by decide,
      by rfl⟩

/-- C6 witness: the two concrete rejections named by the spec,
`setIAPattern(301, 10)` and `setIAPattern(0, 10)`. -/
theorem C6_setIAPattern_validation_witness :
    setIAPattern (initialState defaultOptions) 301 10
      = (initialState defaultOptions, Except.error FacadeError.invalidCode) ∧
    setIAPattern (initialState defaultOptions) 0 10
      = (initialState defaultOptions, Except.error FacadeError.invalidCode) :=
  ⟨(C6_setIAPattern_validation (initialState defaultOptions) 301 10
      (by decide)).1,
    (C6_setIAPattern_validation (initialState defaultOptions) 0 10
      (by decide)).1⟩

/-- C7 counterexample: the claim predicts that `setIAPattern(1, 10)` sends a
delay byte obtained by the speed-to-delay mapping, i.e. `speedToDelay 10 = 28`,
as fourth frame byte; the code sends the raw speed `10` there. -/
theorem C7_counterexample_raw_speed :
    ((setIAPattern (initialState defaultOptions) 1 10).1.commandQueue.map
        (fun c => c.command)) = [[0x61, 0, 100, 10, 0x0f, 222]] ∧
    speedToDelay 10 = 28 ∧
    byteAt [0x61, 0, 100, 10, 0x0f, 222] 3 = 10 ∧ (10 : ℚ) ≠ 28 := by
  refine ⟨by decide, ?_, by decide, by norm_num⟩
  rw [speedToDelay_def, clamp_of_le _ _ _ (by norm_num) (by norm_num)]
  norm_num

/-- C7 amended: for every valid call `setIAPattern(code, speed)` with `code`
in `[1,300]`, the built frame is opcode `0x61`, the 16-bit big-endian value
`code + 99`, then the **raw speed byte, not converted by the speed-to-delay
mapping**, then `0x0f` (and the checksum appended by the send path). -/
theorem C7_amended_frame_layout (st : ControlState) (code speed : Nat)
    (h1 : 1 ≤ code) (h2 : code ≤ 300) :
    ∃ cmd, (setIAPattern st code speed).2 = Except.ok () ∧
      (setIAPattern st code speed).1.commandQueue
        = st.commandQueue ++ [cmd] ∧
      cmd.command
        = [0x61, (code + 99) / 256, (code + 99) % 256, speed, 0x0f] ++
            [calcChecksum
              [0x61, (code + 99) / 256, (code + 99) % 256, speed, 0x0f]] := by
  have hno : ¬(code < 1 ∨ code > 300) := by omega
  have hsr : (code + 99) >>> 8 = (code + 99) / 256 := by
    rw [Nat.shiftRight_eq_div_pow]
  have hand : (code + 99) &&& 0xff = (code + 99) % 256 := land_255_eq_mod _
  refine ⟨⟨st.nextId,
      [0x61, (code + 99) / 256, (code + 99) % 256, speed, 0x0f] ++
        [calcChecksum
          [0x61, (code + 99) / 256, (code + 99) % 256, speed, 0x0f]],
      st.options.ack.pattern⟩, ?_, ?_, rfl⟩
  · unfold setIAPattern
    rw [if_neg hno]
  · unfold setIAPattern
    rw [if_neg hno]
    simp only [hsr, hand]
    exact sendCommand_queue st _ _

/-- C7 amended witness: the frame at `(code, speed) = (1, 10)`. -/
theorem C7_amended_frame_layout_witness :
    ∃ cmd,
      (setIAPattern (initialState defaultOptions) 1 10).2 = Except.ok () ∧
      (setIAPattern (initialState defaultOptions) 1 10).1.commandQueue
        = (initialState defaultOptions).commandQueue ++ [cmd] ∧
      cmd.command
        = [0x61, (1 + 99) / 256, (1 + 99) % 256, 10, 0x0f] ++
            [calcChecksum [0x61, (1 + 99) / 256, (1 + 99) % 256, 10, 0x0f]] :=
  C7_amended_frame_layout (initialState defaultOptions) 1 10 (by decide)
    (by decide)

theorem foldl_slots_length (colors : List Rgb) (l : List Nat) (acc : List Nat) :
    (l.foldl
        (fun acc i =>
          match colors[i]? with
          | some col => acc ++ [col.red, col.green, col.blue, 0]
          | none => acc ++ [1, 2, 3, 0])
        acc).length = acc.length + 4 * l.length := by
  induction l generalizing acc with
  | nil => simp
  | cons i l ih =>
    rw [List.foldl_cons, ih]
    cases colors[i]? <;> simp <;> ring

/-- C8 counterexample: a `CustomMode` instance whose transition type is the
string `other` (neither fade, jump nor strobe) is **not** rejected by
`setCustomPattern`: the call succeeds and queues a command (of 69 bytes — the
transition-type byte is silently missing), refuting the claimed validation
error. -/
theorem C8_counterexample_unknown_transition :
    (setCustomPattern (initialState defaultOptions) ⟨true, [], "other"⟩ 50).2
      = Except.ok () ∧
    ((setCustomPattern (initialState defaultOptions) ⟨true, [], "other"⟩
        50).1.commandQueue.map (fun c => c.command.length)) = [69] := by
  constructor
  · rfl
  · decide

/-- C8 amended: `setCustomPattern` rejects, before any queue interaction and
leaving the state untouched, exactly the arguments that are not `CustomMode`
instances; a genuine instance carrying a transition type other than
fade/jump/strobe is accepted, and the queued frame simply omits the
transition-type byte (69 bytes instead of 70, checksum included). -/
theorem C8_amended_validation (st : ControlState) (p : CustomModePattern)
    (speed : ℚ) :
    (p.isCustomModeInstance = false →
      setCustomPattern st p speed
        = (st, Except.error FacadeError.invalidPattern)) ∧
    (p.isCustomModeInstance = true → p.transitionType ≠ "fade" →
      p.transitionType ≠ "jump" → p.transitionType ≠ "strobe" →
      ∃ cmd, (setCustomPattern st p speed).2 = Except.ok () ∧
        (setCustomPattern st p speed).1.commandQueue
          = st.commandQueue ++ [cmd] ∧
        cmd.command.length = 69) := by
  constructor
  · intro hi
    unfold setCustomPattern
    rw [if_pos (by simp [hi])]
  · intro hi hf hj hs
    unfold setCustomPattern
    rw [if_neg (by simp [hi])]
    simp only [if_neg hf, if_neg hj, if_neg hs]
    refine ⟨_, ?_, sendCommand_queue st _ _, ?_⟩
    · trivial
    have hsl := foldl_slots_length p.colors (List.range 16) []
    simp only [List.length_nil, List.length_range, Nat.zero_add] at hsl
    simp [hsl]

/-- C8 amended witness: both branches at concrete inputs — a non-instance is
rejected, and an instance with transition type `other` is queued with a
69-byte frame. -/
theorem C8_amended_validation_witness :
    (setCustomPattern (initialState defaultOptions) ⟨false, [], "fade"⟩ 50
      = (initialState defaultOptions, Except.error FacadeError.invalidPattern)) ∧
    ∃ cmd,
      (setCustomPattern (initialState defaultOptions) ⟨true, [], "other"⟩ 50).2
        = Except.ok () ∧
      (setCustomPattern (initialState defaultOptions) ⟨true, [], "other"⟩
          50).1.commandQueue
        = (initialState defaultOptions).commandQueue ++ [cmd] ∧
      cmd.command.length = 69 :=
  ⟨(C8_amended_validation (initialState defaultOptions) ⟨false, [], "fade"⟩
      50).1 rfl,
    (C8_amended_validation (initialState defaultOptions) ⟨true, [], "other"⟩
      50).2 rfl (by decide) (by decide) (by decide)⟩

/-- C10: for every query response of at least 14 bytes whose byte at offset 3
lies in `[0x25, 0x38]` but matches no code of the pattern table, the decode
step of `queryState` classifies the mode as `pattern` yet returns a `null`
pattern: the 16-bit fallback range `[0x64, 0x18f]` cannot match because the
big-endian value at offsets 3–4 is at least `0x2500`. Proved for every
pattern table (the table lives in `constants.ts`, which is not among the
provided sources). -/
theorem C10_pattern_mode_null_pattern (tbl : PatternTable) (data : List Nat)
    (hlen : 14 ≤ data.length) (h1 : 0x25 ≤ byteAt data 3)
    (h2 : byteAt data 3 ≤ 0x38) (h3 : ∀ p ∈ tbl, p.2 ≠ byteAt data 3) :
    ∃ s, decodeQueryResponse tbl data = Except.ok s ∧
      s.mode = some Mode.pattern ∧ s.pattern = none := by
  have hmode : determineMode data = some Mode.pattern := by
    unfold determineMode
    rw [if_neg (by omega), if_neg (by omega), if_neg (by omega),
      if_pos ⟨h1, h2⟩]
  have hfind : tbl.find? (fun p => p.2 = byteAt data 3) = none :=
    List.find?_eq_none.mpr (fun p hp => by simpa using h3 p hp)
  have hpat : determinePattern tbl data = none := by
    have hv : ¬(0x64 ≤ readUInt16BE data 3 ∧ readUInt16BE data 3 ≤ 0x18f) := by
      unfold readUInt16BE
      omega
    unfold determinePattern
    rw [if_pos ⟨h1, h2⟩, hfind]
    simp [hv]
  have hok : decodeQueryResponse tbl data = Except.ok
      { type := byteAt data 1
        onFlag := byteAt data 2 = 0x23
        mode := determineMode data
        pattern := determinePattern tbl data
        speed :=
          if determineMode data ≠ some Mode.ia_pattern then
            delayToSpeed (byteAt data 5)
          else
            (byteAt data 5 : ℚ)
        color := ⟨byteAt data 6, byteAt data 7, byteAt data 8⟩
        warm_white := byteAt data 9
        cold_white := byteAt data 11 } := by
    unfold decodeQueryResponse
    rw [if_neg (by omega)]
  exact ⟨_, hok, hmode, hpat⟩

/-- C10 witness: the empty table and a 14-byte response with byte 3 equal to
`0x25`. -/
theorem C10_pattern_mode_null_pattern_witness :
    ∃ s, decodeQueryResponse []
          [0, 0, 0, 0x25, 0x21, 5, 1, 2, 3, 4, 0, 6, 0, 0] = Except.ok s ∧
      s.mode = some Mode.pattern ∧ s.pattern = none :=
  C10_pattern_mode_null_pattern [] [0, 0, 0, 0x25, 0x21, 5, 1, 2, 3, 4, 0, 6, 0, 0]
    (by decide) (by decide) (by decide) (by decide)

/-- C1: commands settle in exactly the order they were submitted: in every
reachable state the settlement log lists ids `0, 1, …, k-1` in order (ids are
assigned in submission order), and the queue holds exactly the remaining ids
`k, …, nextId - 1` in submission order — so no command settles before an
earlier-submitted one, and only the queue head (the least pending id) is ever
finalized. -/
theorem C1_fifo_settlement (opts : ControlOptions) (es : List Event) :
    settledIds (run opts es) = List.range (settledIds (run opts es)).length ∧
    settledIds (run opts es) ++ queueIds (run opts es)
      = List.range (run opts es).nextId := by
  have h := (inv_run opts es).1
  refine ⟨?_, h⟩
  have hlen : (settledIds (run opts es)).length ≤ (run opts es).nextId := by
    have h2 := congrArg List.length h
    simp only [List.length_append, List.length_range] at h2
    omega
  calc settledIds (run opts es)
      = (settledIds (run opts es) ++ queueIds (run opts es)).take
          (settledIds (run opts es)).length := (List.take_left _ _).symm
    _ = (List.range (run opts es).nextId).take
          (settledIds (run opts es)).length := by rw [h]
    _ = List.range (settledIds (run opts es)).length := by
          rw [List.take_range]
          exact congrArg List.range (min_eq_left hlen)

/-- C3: a socket-level error in any reachable state rejects every queued
command with that same error, the queue is empty immediately afterward, the
socket is discarded, a connect-timeout fire goes through the same handler
with its own error, and the next submission opens a fresh connection. -/
theorem C3_socket_error_flushes (opts : ControlOptions) (es : List Event)
    (code : Nat) :
    (∀ c ∈ (run opts es).commandQueue,
        (c.id, Settlement.rejected (ErrKind.socketErr code))
          ∈ (step (run opts es) (Event.socketError code)).settled) ∧
    (step (run opts es) (Event.socketError code)).commandQueue = [] ∧
    (step (run opts es) (Event.socketError code)).socket = false ∧
    ((run opts es).connectTimeoutArmed = true →
      (∀ c ∈ (run opts es).commandQueue,
          (c.id, Settlement.rejected ErrKind.connectTimeout)
            ∈ (step (run opts es) Event.connectTimeoutFire).settled) ∧
        (step (run opts es) Event.connectTimeoutFire).commandQueue = []) ∧
    ∀ buf er,
      (step (step (run opts es) (Event.socketError code))
          (Event.submit buf er)).socket = true ∧
      queueIds (step (step (run opts es) (Event.socketError code))
          (Event.submit buf er))
        = [(step (run opts es) (Event.socketError code)).nextId] := by
  have hInv := inv_run opts es
  obtain ⟨hids, hmem, hq0, hs, hn, hop⟩ :=
    socketErrorHandler_spec (run opts es) (ErrKind.socketErr code) hInv
  refine ⟨hmem, hq0, hs, ?_, ?_⟩
  · intro harm
    have hspec2 :=
      socketErrorHandler_spec (run opts es) ErrKind.connectTimeout hInv
    have hstep : step (run opts es) Event.connectTimeoutFire
        = socketErrorHandler (run opts es) ErrKind.connectTimeout := by
      simp [step, harm]
    rw [hstep]
    exact ⟨hspec2.2.1, hspec2.2.2.1⟩
  · intro buf er
    constructor
    · show (sendCommand _ buf er).socket = true
      unfold sendCommand
      rw [if_pos ⟨hq0, hs⟩]
    · show queueIds (sendCommand _ buf er) = _
      unfold sendCommand
      rw [if_pos ⟨hq0, hs⟩]
      simp [queueIds]

/-- C3 witness: one queued command, a socket error with error code 5 (with a
connect timeout configured so the connect-timeout branch is also
exercised), and a fresh submission afterwards. -/
theorem C3_socket_error_flushes_witness :
    ((0 : Nat), Settlement.rejected (ErrKind.socketErr 5))
      ∈ (step (run { defaultOptions with connectTimeoutLength := some 5 }
          [Event.submit [0x71, 0x23, 0x0f] true])
          (Event.socketError 5)).settled ∧
    (step (run { defaultOptions with connectTimeoutLength := some 5 }
        [Event.submit [0x71, 0x23, 0x0f] true])
        Event.connectTimeoutFire).commandQueue = [] ∧
    (step (step (run { defaultOptions with connectTimeoutLength := some 5 }
        [Event.submit [0x71, 0x23, 0x0f] true]) (Event.socketError 5))
        (Event.submit [0x31, 0x00, 0x0f] false)).socket = true := by
  refine ⟨?_, ?_, ?_⟩
  · exact (C3_socket_error_flushes
        { defaultOptions with connectTimeoutLength := some 5 }
        [Event.submit [0x71, 0x23, 0x0f] true] 5).1
      ⟨0, [0x71, 0x23, 0x0f, 0xa3], true⟩ (by decide)
  · exact ((C3_socket_error_flushes
        { defaultOptions with connectTimeoutLength := some 5 }
        [Event.submit [0x71, 0x23, 0x0f] true] 5).2.2.2.1 (by decide)).2
  · exact ((C3_socket_error_flushes
        { defaultOptions with connectTimeoutLength := some 5 }
        [Event.submit [0x71, 0x23, 0x0f] true] 5).2.2.2.2
      [0x31, 0x00, 0x0f] false).1

/-- C4: a head command whose acknowledgement flag (`expectReply`) is false is
finalized as succeeded immediately when its write completes — with whatever
bytes (possibly none) are buffered — and the queue advances; and the facade
boolean computed for an ack-disabled category is `true` whatever the
controller returned. -/
theorem C4_no_ack_immediate_success (st : ControlState) (c : Command)
    (rest : List Command) (hq : st.commandQueue = c :: rest)
    (hr : c.expectReply = false) (hf : c.id ∉ settledIds st) :
    (step st Event.writeComplete).settled
      = st.settled ++ [(c.id, Settlement.resolved st.receivedData)] ∧
    (step st Event.writeComplete).commandQueue = rest ∧
    ∀ ackData : List Nat, facadeResult ackData false = true := by
  have hw : step st Event.writeComplete = receiveData st true [] := by
    show writeCb st = _
    rw [writeCb_cons st c rest hq, if_neg (by simp [hr])]
  rw [hw, receiveData_true_cons st [] c rest hq,
    settle_of_not_mem st c.id _ hf]
  refine ⟨?_, ?_, ?_⟩
  · rw [handleNextCommand_settled]
  · rw [handleNextCommand_commandQueue]
  · intro ackData
    simp [facadeResult]

/-- C4 witness: a no-reply power command, settled at write completion with an
empty buffer. -/
theorem C4_no_ack_immediate_success_witness :
    (step (run defaultOptions [Event.submit [0x71, 0x24, 0x0f] false,
        Event.connected]) Event.writeComplete).settled
      = [(0, Settlement.resolved [])] ∧
    (step (run defaultOptions [Event.submit [0x71, 0x24, 0x0f] false,
        Event.connected]) Event.writeComplete).commandQueue = [] ∧
    ∀ ackData : List Nat, facadeResult ackData false = true :=
  C4_no_ack_immediate_success
    (run defaultOptions [Event.submit [0x71, 0x24, 0x0f] false,
      Event.connected])
    ⟨0, [0x71, 0x24, 0x0f, 0xa4], false⟩ [] (by decide) (by decide) (by decide)

/-- C9 counterexample: a command expecting a reply receives one byte and then
a socket error finishes it (rejected), yet the receive buffer still holds the
byte; after the next submission reconnects, the following command is resolved
with the stale byte prepended to its own reply — refuting "reset whenever a
command finishes (success or failure)" and "never carried over". -/
theorem C9_counterexample_stale_buffer :
    (run defaultOptions [Event.submit [0x71, 0x23, 0x0f] true, Event.connected,
        Event.writeComplete, Event.data [1], Event.socketError 7]).settled
      = [(0, Settlement.rejected (ErrKind.socketErr 7))] ∧
    (run defaultOptions [Event.submit [0x71, 0x23, 0x0f] true, Event.connected,
        Event.writeComplete, Event.data [1], Event.socketError 7]).receivedData
      = [1] ∧
    (run defaultOptions [Event.submit [0x71, 0x23, 0x0f] true, Event.connected,
        Event.writeComplete, Event.data [1], Event.socketError 7,
        Event.submit [0x81, 0x8a, 0x8b] true, Event.connected,
        Event.writeComplete, Event.data [2], Event.receiveTimeout]).settled
      = [(0, Settlement.rejected (ErrKind.socketErr 7)),
          (1, Settlement.resolved [1, 2])] := by
  refine ⟨by decide, by decide, by decide⟩

/-- C9 amended: the receive buffer is cleared whenever a command finishes
through the response path (`receiveData(true)`, covering both the quiet-period
resolution and the no-reply write completion) or through the per-command
timeout; the socket-error handler, however, leaves the buffer untouched, so
bytes accumulated before a socket error survive into the next session. -/
theorem C9_amended_buffer_reset (st : ControlState) (data : List Nat)
    (err : ErrKind) :
    (receiveData st true data).receivedData = [] ∧
    (handleCommandTimeout st).receivedData = [] ∧
    (socketErrorHandler st err).receivedData = st.receivedData := by
  refine ⟨?_, ?_, socketErrorHandler_receivedData st err⟩
  · cases hq : st.commandQueue with
    | nil =>
      rw [receiveData_true_nil st data hq, handleNextCommand_receivedData]
    | cons c rest =>
      rw [receiveData_true_cons st data c rest hq,
        handleNextCommand_receivedData]
  · cases hq : st.commandQueue with
    | nil =>
      rw [handleCommandTimeout_nil st hq, handleNextCommand_receivedData]
    | cons c rest =>
      rw [handleCommandTimeout_cons st c rest hq,
        handleNextCommand_receivedData]

end HBGL
